import Mathlib

/-!
Verification of the rpapp-admin dashboard core: the multi-criterion sort
engine, the per-kiosk view state (sort configuration, column widths), the
optimistic product cache, and the form/stock-save effect flows.

Shallow embedding conventions:
* TypeScript objects become Lean structures; optional fields (`x?: T`)
  become `Option T` and the nullish defaults (`?? 0`, `?? false`, `|| 0`)
  become `Option.getD`.
* TS `number` is modelled as `Int` for prices, widths and comparator
  values (the code only ever compares, subtracts and clamps them), and as
  `Nat` for quantities and priorities (the code keeps them non-negative).
* `Array.prototype.sort(cmp)` is modelled as the stable `List.mergeSort`
  with the boolean relation `cmp a b <= 0`, matching the stable sort that
  ECMAScript mandates.
* `String.prototype.localeCompare(..., "cs")` (Czech collation) is kept
  abstract: sort definitions are parameterised by a comparison function
  `lc : String -> String -> Int`.
* Handlers performing network IO become pure functions from their inputs
  and the relevant response outcomes to a list of emitted effects.
-/

namespace Rpapp

/-- `AdminProduct` from the shared package, as consumed by
`Dashboard.tsx` and `useProducts`: `id`, `name`, `price` are always
present; `description`, `image`, `imageUrl`, `active`,
`quantityInStock` are optional. -/
structure Product where
  id : Int
  name : String
  price : Int
  description : Option String := none
  image : Option String := none
  imageUrl : Option String := none
  active : Option Bool := none
  quantityInStock : Option Nat := none
deriving DecidableEq, Repr

/-- `SortField` from `Dashboard.tsx` line 28:
`'name' | 'price' | 'quantity' | 'visibility' | 'active'`. -/
inductive SortField where
  | name
  | price
  | quantity
  | visibility
  | active
deriving DecidableEq, Repr

/-- `SortDirection` from `Dashboard.tsx` line 29: `'asc' | 'desc'`. -/
inductive SortDirection where
  | asc
  | desc
deriving DecidableEq, Repr

/-- `SortCriterion` from `Dashboard.tsx` lines 31-35. -/
structure SortCriterion where
  field : SortField
  direction : SortDirection
  priority : Nat
deriving DecidableEq, Repr

/-- `MultiSortConfig` from `Dashboard.tsx` lines 37-39. -/
structure MultiSortConfig where
  criteria : List SortCriterion
deriving DecidableEq, Repr

/-- `getVisibilityPriority` from `Dashboard.tsx` lines 442-454:
`quantity = product.quantityInStock ?? 0`, `isActive = product.active ??
false`; returns 2 when the quantity is 0, otherwise 0 when active and 1
when not. -/
def getVisibilityPriority (product : Product) : Int :=
  let quantity := product.quantityInStock.getD 0
  let isActive := product.active.getD false
  if quantity = 0 then 2
  else if isActive then 0
  else 1

/-! ## Multi-criterion sort engine (`Dashboard.tsx` lines 457-518)

`sortProducts` copies the list and sorts it with a comparator built from
the current `MultiSortConfig`.  JavaScript's `Array.prototype.sort` is
stable, which `List.mergeSort` models; the comparator `cmp` becomes the
boolean relation `cmp a b ≤ 0`.  The Czech `localeCompare` is abstracted
as a parameter `lc`. -/

/-- The default comparison (`criteria.length === 0` branch, lines
461-472): compare visibility priorities, break ties with
`localeCompare(..., "cs")` on the names. -/
def cmpDefault (lc : String → String → Int) (a b : Product) : Int :=
  let priorityComparison := getVisibilityPriority a - getVisibilityPriority b
  if priorityComparison ≠ 0 then priorityComparison
  else lc a.name b.name

/-- The per-field comparison of the `switch (criterion.field)` block,
lines 478-509.  `quantity` uses `a.quantityInStock || 0`; `visibility`
and `active` both compare `getVisibilityPriority`. -/
def cmpField (lc : String → String → Int) :
    SortField → Product → Product → Int
  | .name, a, b => lc a.name b.name
  | .price, a, b => a.price - b.price
  | .quantity, a, b =>
      (a.quantityInStock.getD 0 : Int) - (b.quantityInStock.getD 0 : Int)
  | .visibility, a, b => getVisibilityPriority a - getVisibilityPriority b
  | .active, a, b => getVisibilityPriority a - getVisibilityPriority b

/-- The `for (const criterion of ...)` loop, lines 475-514: the first
criterion with a non-zero comparison decides, negated for `desc`;
if every criterion ties the comparator returns 0. -/
def cmpCriteria (lc : String → String → Int) :
    List SortCriterion → Product → Product → Int
  | [], _, _ => 0
  | c :: rest, a, b =>
    let comparison := cmpField lc c.field a b
    if comparison ≠ 0 then
      match c.direction with
      | .asc => comparison
      | .desc => -comparison
    else cmpCriteria lc rest a b

/-- The full comparator of `sortProducts`: the default ordering when the
configuration is empty, the criteria loop otherwise. -/
def sortCmp (lc : String → String → Int) (cfg : MultiSortConfig)
    (a b : Product) : Int :=
  if cfg.criteria.length = 0 then cmpDefault lc a b
  else cmpCriteria lc cfg.criteria a b

/-- `sortProducts` from `Dashboard.tsx` lines 457-518:
`[...productsToSort].sort(cmp)` as a stable merge sort. -/
def sortProducts (lc : String → String → Int) (cfg : MultiSortConfig)
    (productsToSort : List Product) : List Product :=
  productsToSort.mergeSort (fun a b => decide (sortCmp lc cfg a b ≤ 0))

/-! ## Sort-configuration operations (`Dashboard.tsx` lines 399-536) -/

/-- Direction flip used in the toggle branch of `handleSort`. -/
def toggleDirection : SortDirection → SortDirection
  | .asc => .desc
  | .desc => .asc

/-- The `criteria.sort((a, b) => a.priority - b.priority)` step of
`normalizePriorities` (stable sort by priority). -/
def sortByPriority (criteria : List SortCriterion) : List SortCriterion :=
  criteria.mergeSort (fun a b => decide (a.priority ≤ b.priority))

/-- The `.map((criterion, index) => ({...criterion, priority: index}))`
step of `normalizePriorities`, with the running index made explicit. -/
def reindexFrom (i : Nat) : List SortCriterion → List SortCriterion
  | [] => []
  | c :: rest => { c with priority := i } :: reindexFrom (i + 1) rest

/-- `normalizePriorities` from `Dashboard.tsx` lines 400-407: sort by
priority, then renumber priorities as consecutive indices from 0. -/
def normalizePriorities (criteria : List SortCriterion) : List SortCriterion :=
  reindexFrom 0 (sortByPriority criteria)

/-- The element-wise update of the toggle branch of `handleSort`: flip
the direction of the criterion for `field`, keep the others. -/
def toggleAt (field : SortField) (c : SortCriterion) : SortCriterion :=
  if c.field = field then { c with direction := toggleDirection c.direction }
  else c

/-- `handleSort` from `Dashboard.tsx` lines 410-439, restricted to the
current kiosk's configuration (the surrounding code only threads the
per-kiosk record): toggle the direction in place when the field is
already a criterion, otherwise append it with `asc` direction and the
next available priority; normalize priorities in both branches. -/
def handleSort (cfg : MultiSortConfig) (field : SortField) : MultiSortConfig :=
  if (cfg.criteria.find? (fun c => c.field = field)).isSome then
    ⟨normalizePriorities (cfg.criteria.map (toggleAt field))⟩
  else
    ⟨normalizePriorities (cfg.criteria ++
      [{ field := field, direction := .asc, priority := cfg.criteria.length }])⟩

/-- Sample two-criterion sort configuration. -/
def sampleSortConfig : MultiSortConfig :=
  ⟨[{ field := .name, direction := .asc, priority := 0 },
    { field := .price, direction := .desc, priority := 1 }]⟩

/-- Sample three-criterion sort configuration. -/
def sampleSortConfig3 : MultiSortConfig :=
  ⟨[{ field := .name, direction := .asc, priority := 0 },
    { field := .price, direction := .desc, priority := 1 },
    { field := .quantity, direction := .asc, priority := 2 }]⟩

/-- `resetSort` from `Dashboard.tsx` lines 520-525: clears the current
kiosk's criteria. -/
def resetSort (_cfg : MultiSortConfig) : MultiSortConfig :=
  ⟨[]⟩

/-- `removeSortCriterion` from `Dashboard.tsx` lines 527-536: drop the
criterion for `field` and normalize the remaining priorities. -/
def removeSortCriterion (cfg : MultiSortConfig) (field : SortField) :
    MultiSortConfig :=
  ⟨normalizePriorities (cfg.criteria.filter (fun c => ¬ c.field = field))⟩

/-- The priorities of `criteria` are exactly `i, i+1, ...` in list
order.  `IndexedFrom 0` is the normal form `normalizePriorities`
establishes. -/
def IndexedFrom : Nat → List SortCriterion → Prop
  | _, [] => True
  | i, c :: rest => c.priority = i ∧ IndexedFrom (i + 1) rest

/-- Configurations reachable from the empty configuration by the three
user operations of the view-state coordinator. -/
inductive Reachable : MultiSortConfig → Prop where
  | empty : Reachable ⟨[]⟩
  | sort (cfg : MultiSortConfig) (field : SortField) :
      Reachable cfg → Reachable (handleSort cfg field)
  | remove (cfg : MultiSortConfig) (field : SortField) :
      Reachable cfg → Reachable (removeSortCriterion cfg field)
  | reset (cfg : MultiSortConfig) :
      Reachable cfg → Reachable (resetSort cfg)

/-! ## Column resizing (`Dashboard.tsx` lines 548-580)

The dashboard renders exactly four resizable columns, in the fixed
order `name, price, quantity, visibility` (`columnOrder`, line 565);
these are the only fields `handleColumnResize` is invoked with. -/

/-- The four table columns, in `columnOrder`. -/
inductive Column where
  | name
  | price
  | quantity
  | visibility
deriving DecidableEq, Repr

/-- A per-kiosk column-width assignment in pixels. -/
structure ColWidths where
  name : Int
  price : Int
  quantity : Int
  visibility : Int
deriving DecidableEq, Repr

/-- The default widths (`Dashboard.tsx` lines 391-396 and 550-555). -/
def defaultColumnWidths : ColWidths :=
  { name := 300, price := 120, quantity := 200, visibility := 150 }

/-- `Math.max(80, Math.min(500, w))`. -/
def clampWidth (w : Int) : Int :=
  max 80 (min 500 w)

/-- The column following `field` in `columnOrder`, if any. -/
def nextColumn : Column → Option Column
  | .name => some .price
  | .price => some .quantity
  | .quantity => some .visibility
  | .visibility => none

/-- Read one column's width. -/
def getWidth (w : ColWidths) : Column → Int
  | .name => w.name
  | .price => w.price
  | .quantity => w.quantity
  | .visibility => w.visibility

/-- Write one column's width. -/
def setWidth (w : ColWidths) : Column → Int → ColWidths
  | .name, v => { w with name := v }
  | .price, v => { w with price := v }
  | .quantity, v => { w with quantity := v }
  | .visibility, v => { w with visibility := v }

/-- `handleColumnResize` from `Dashboard.tsx` lines 548-580: clamp the
resized column to `[80, 500]`, then give the next column in
`columnOrder` the opposite delta, also clamped.  The last column has no
follower and is only clamped in place. -/
def handleColumnResize (w : ColWidths) (field : Column) (newWidth : Int) :
    ColWidths :=
  let deltaWidth := newWidth - getWidth w field
  let updated := setWidth w field (clampWidth newWidth)
  match nextColumn field with
  | some nextField =>
      setWidth updated nextField (clampWidth (getWidth updated nextField - deltaWidth))
  | none => updated

/-! ## Optimistic cache operations (`useProducts`, src/unnamed/part_000)

Each SWR `mutate` callback transforms the cached list; the `undefined`
cache case of the callbacks is the empty list here. -/

/-- `addProduct` (part_000 lines 135-140): append. -/
def addProduct (currentProducts : List Product) (newProduct : Product) :
    List Product :=
  currentProducts ++ [newProduct]

/-- `updateProduct` (part_000 lines 142-149): merge by id. -/
def updateProduct (currentProducts : List Product) (updatedProduct : Product) :
    List Product :=
  currentProducts.map (fun p => if p.id = updatedProduct.id then updatedProduct else p)

/-- `removeProduct` (part_000 lines 151-156): filter by id. -/
def removeProduct (currentProducts : List Product) (productId : Int) :
    List Product :=
  currentProducts.filter (fun p => ¬ p.id = productId)

/-- `revertProduct` (part_000 lines 158-163): re-append a product whose
optimistic delete the server rejected. -/
def revertProduct (currentProducts : List Product) (product : Product) :
    List Product :=
  currentProducts ++ [product]

/-! ## Stock-save flow (`InventoryRow.handleSave`, `Dashboard.tsx`
lines 166-197)

The handler awaits the stock update, then — only when the saved
quantity is 0 — issues one visibility update with `visible:false` for
the same `(productId, kioskId)` and, if that request succeeds,
dispatches a single `admin-refresh-requested` event; finally it
refreshes the list.  `visOk` is the `response.ok` of the visibility
request (a thrown transport error behaves like `visOk = false`: the
inner catch swallows it). -/

/-- Observable effects of `handleSave`, in program order. -/
inductive SaveEffect where
  | stockUpdate (productId kioskId : Int) (quantityInStock : Nat)
  | visUpdate (productId kioskId : Int) (visible : Bool)
  | dispatchRefreshEvent
  | refreshList
deriving DecidableEq, Repr

/-- Recognizer for visibility-update requests. -/
def SaveEffect.isVisUpdate : SaveEffect → Bool
  | .visUpdate _ _ _ => true
  | _ => false

/-- The effect trace of `handleSave` on the success path of the stock
update. -/
def handleSave (productId kioskId : Int) (quantity : Nat) (visOk : Bool) :
    List SaveEffect :=
  [SaveEffect.stockUpdate productId kioskId quantity] ++
    (if quantity = 0 then
      SaveEffect.visUpdate productId kioskId false ::
        (if visOk then [SaveEffect.dispatchRefreshEvent] else [])
    else []) ++
    [SaveEffect.refreshList]

/-! ## The SWR fetcher (`useProducts`, part_000 lines 24-48)

The fetcher's control flow: a transport failure is an error
(`NetworkError` in the spec's taxonomy); a non-`ok` response throws (the
`HTTP ${status}` error — `ApiError`); a body that is not
`{success, data: {products}}` throws (`ParseError`), as does an
unparsable body (`response.json()` rejecting). -/

/-- A parsed response body: `data.success` and, when present,
`data.data?.products`. -/
structure JsonBody where
  success : Bool
  dataProducts : Option (List Product)
deriving DecidableEq, Repr

/-- The outcome of the underlying `fetch`: transport failure, or a
response with a status and a body that may fail to parse. -/
inductive HttpResult where
  | netFail
  | resp (ok : Bool) (status : Nat) (json : Option JsonBody)
deriving DecidableEq, Repr

/-- The spec's error taxonomy for read operations. -/
inductive FetchError where
  | NetworkError
  | ApiError (status : Nat)
  | ParseError
deriving DecidableEq, Repr

/-- `fetcher`, part_000 lines 24-48. -/
def fetcher : HttpResult → Except FetchError (List Product)
  | .netFail => .error .NetworkError
  | .resp ok status json =>
    if ok = false then .error (.ApiError status)
    else
      match json with
      | none => .error .ParseError
      | some body =>
        if body.success then
          match body.dataProducts with
          | some products => .ok products
          | none => .error .ParseError
        else .error .ParseError

/-- The cache after a fetch completes: a successful fetch replaces the
cached list; a failed one keeps the previous data (SWR is configured
with `keepPreviousData: true`). -/
def cacheAfterFetch (cached : List Product) (r : HttpResult) : List Product :=
  match fetcher r with
  | .ok products => products
  | .error _ => cached

/-! ## Product form validation and submission (`Dashboard.tsx` lines
592-659) -/

/-- The fields of `ProductFormData` that validation and submission
read. -/
structure ProductForm where
  name : String
  price : Int
  description : String
deriving DecidableEq, Repr

/-- `validateProductForm`, lines 592-602: reject an empty trimmed name
or a non-positive price. -/
def validateProductForm (productForm : ProductForm) : Bool :=
  if productForm.name.trim = "" then false
  else if productForm.price ≤ 0 then false
  else true

/-- The outcome of the submit request. -/
inductive SubmitResp where
  | netErr
  | httpResp (ok : Bool) (product : Option Product)
deriving DecidableEq, Repr

/-- Observable effects of `handleProductSubmit`, in program order. -/
inductive SubmitEffect where
  | request (method : String) (name : String) (price : Int)
  | notifySuccess
  | notifyError
  | revalidateList
deriving DecidableEq, Repr

/-- `handleProductSubmit`, lines 604-659, as effects plus the resulting
cached list: validation failure returns before any network call; a
successful response merges or appends the returned product
optimistically and revalidates; an error response or a network error
only notifies. -/
def handleProductSubmit (editingProduct : Option Product)
    (productForm : ProductForm) (cache : List Product) (resp : SubmitResp) :
    List SubmitEffect × List Product :=
  if validateProductForm productForm = true then
    let method := if editingProduct.isSome then "PUT" else "POST"
    let requestEffect := SubmitEffect.request method productForm.name.trim productForm.price
    match resp with
    | .netErr => ([requestEffect, .notifyError], cache)
    | .httpResp ok newProduct =>
      if ok then
        let newCache :=
          match editingProduct, newProduct with
          | some _, some p => updateProduct cache p
          | none, some p => addProduct cache p
          | _, none => cache
        ([requestEffect, .notifySuccess, .revalidateList], newCache)
      else ([requestEffect, .notifyError], cache)
  else ([], cache)

/-- Constantly-tying stand-in for `localeCompare`, used by witnesses. -/
def lcZero : String → String → Int := fun _ _ => 0

/-- Sample product: active with zero stock. -/
def sampleActiveNoStock : Product :=
  { id := 1, name := "a", price := 10, active := some true, quantityInStock := some 0 }

/-- Sample product: active and in stock. -/
def sampleActiveInStock : Product :=
  { id := 2, name := "b", price := 10, active := some true, quantityInStock := some 5 }

/-- Sample product: inactive but in stock. -/
def sampleHiddenInStock : Product :=
  { id := 3, name := "c", price := 10, active := some false, quantityInStock := some 5 }

/-- Sample product: no inventory record and no active flag. -/
def sampleBare : Product :=
  { id := 4, name := "d", price := 10 }

/-- Sample product: in stock, active flag missing. -/
def sampleNoFlagInStock : Product :=
  { id := 5, name := "e", price := 10, quantityInStock := some 7 }

/-! ## Claim theorems -/

/-- C1: `getVisibilityPriority` returns 2 whenever the (defaulted)
quantity is 0 regardless of the active flag, 0 when the product is active
with positive quantity, 1 when inactive with positive quantity; a missing
`quantityInStock` behaves as 0 and a missing `active` behaves as
`false`. -/
theorem C1_visibility_priority :
    (∀ p : Product, p.quantityInStock.getD 0 = 0 → getVisibilityPriority p = 2) ∧
    (∀ p : Product, p.active.getD false = true → 0 < p.quantityInStock.getD 0 →
      getVisibilityPriority p = 0) ∧
    (∀ p : Product, p.active.getD false = false → 0 < p.quantityInStock.getD 0 →
      getVisibilityPriority p = 1) ∧
    (∀ p : Product, p.quantityInStock = none → getVisibilityPriority p = 2) ∧
    (∀ p : Product, p.active = none → 0 < p.quantityInStock.getD 0 →
      getVisibilityPriority p = 1) := by
  refine ⟨?_, ?_, ?_, ?_, ?_⟩
  · intro p h1
    simp [getVisibilityPriority, h1]
  · intro p h1 h2
    simp [getVisibilityPriority, h1, Nat.pos_iff_ne_zero.mp h2]
  · intro p h1 h2
    simp [getVisibilityPriority, h1, Nat.pos_iff_ne_zero.mp h2]
  · intro p h1
    simp [getVisibilityPriority, h1]
  · intro p h1 h2
    simp [getVisibilityPriority, h1, Nat.pos_iff_ne_zero.mp h2]

/-- C1 witness: evaluation of `getVisibilityPriority` through
`C1_visibility_priority` at concrete products. -/
theorem C1_visibility_priority_witness :
    getVisibilityPriority sampleActiveNoStock = 2 ∧
    getVisibilityPriority sampleActiveInStock = 0 ∧
    getVisibilityPriority sampleHiddenInStock = 1 ∧
    getVisibilityPriority sampleBare = 2 ∧
    getVisibilityPriority sampleNoFlagInStock = 1 :=
  ⟨C1_visibility_priority.1 _ (by decide),
   C1_visibility_priority.2.1 _ (by decide) (by decide),
   C1_visibility_priority.2.2.1 _ (by decide) (by decide),
   C1_visibility_priority.2.2.2.1 _ rfl,
   C1_visibility_priority.2.2.2.2 _ rfl (by decide)⟩

/-- The visibility priority of a product with zero (defaulted) stock. -/
theorem visPriority_of_qty_zero (p : Product) (h : p.quantityInStock.getD 0 = 0) :
    getVisibilityPriority p = 2 := by
  simp [getVisibilityPriority, h]

/-- The visibility priority of an active product with positive stock. -/
theorem visPriority_of_active_stock (p : Product) (h1 : p.active.getD false = true)
    (h2 : 0 < p.quantityInStock.getD 0) : getVisibilityPriority p = 0 := by
  simp [getVisibilityPriority, h1, Nat.pos_iff_ne_zero.mp h2]

/-- Characterization of `cmpDefault ≤ 0`: the smaller visibility
priority wins, names break exact ties. -/
theorem cmpDefault_le_iff (lc : String → String → Int) (a b : Product) :
    cmpDefault lc a b ≤ 0 ↔
      (getVisibilityPriority a < getVisibilityPriority b ∨
        (getVisibilityPriority a = getVisibilityPriority b ∧ lc a.name b.name ≤ 0)) := by
  simp only [cmpDefault]
  split <;> omega

/-- The default comparator is total when `lc` is. -/
theorem cmpDefault_total (lc : String → String → Int)
    (lcTotal : ∀ s t, lc s t ≤ 0 ∨ lc t s ≤ 0) (a b : Product) :
    cmpDefault lc a b ≤ 0 ∨ cmpDefault lc b a ≤ 0 := by
  rw [cmpDefault_le_iff, cmpDefault_le_iff]
  rcases lcTotal a.name b.name with h | h <;> omega

/-- The default comparator is transitive when `lc` is. -/
theorem cmpDefault_trans (lc : String → String → Int)
    (lcTrans : ∀ s t u, lc s t ≤ 0 → lc t u ≤ 0 → lc s u ≤ 0) (a b c : Product)
    (hab : cmpDefault lc a b ≤ 0) (hbc : cmpDefault lc b c ≤ 0) :
    cmpDefault lc a c ≤ 0 := by
  rw [cmpDefault_le_iff] at hab hbc ⊢
  rcases hab with h | ⟨he, hl⟩ <;> rcases hbc with h2 | ⟨he2, hl2⟩
  · omega
  · omega
  · omega
  · exact Or.inr ⟨he.trans he2, lcTrans _ _ _ hl hl2⟩

/-- C2: with an empty sort configuration, `sortProducts` places every
product that is active with positive stock before every product with
zero stock: no pair in output order has a zero-stock product preceding
an active in-stock one.  `lc` is any transitive, total comparison
standing in for `localeCompare(..., "cs")`. -/
theorem C2_default_sort_stock_first (lc : String → String → Int)
    (lcTotal : ∀ s t, lc s t ≤ 0 ∨ lc t s ≤ 0)
    (lcTrans : ∀ s t u, lc s t ≤ 0 → lc t u ≤ 0 → lc s u ≤ 0)
    (l : List Product) :
    (sortProducts lc ⟨[]⟩ l).Pairwise (fun a b =>
      ¬(a.quantityInStock.getD 0 = 0 ∧
        b.active.getD false = true ∧ 0 < b.quantityInStock.getD 0)) := by
  have hs : (l.mergeSort (fun a b => decide (cmpDefault lc a b ≤ 0))).Pairwise
      (fun a b => decide (cmpDefault lc a b ≤ 0)) := by
    apply List.sorted_mergeSort
    · intro a b c h1 h2
      simp only [decide_eq_true_eq] at h1 h2 ⊢
      exact cmpDefault_trans lc lcTrans a b c h1 h2
    · intro a b
      simp only [Bool.or_eq_true, decide_eq_true_eq]
      exact cmpDefault_total lc lcTotal a b
  have heq : sortProducts lc ⟨[]⟩ l =
      l.mergeSort (fun a b => decide (cmpDefault lc a b ≤ 0)) := rfl
  rw [heq]
  refine hs.imp ?_
  intro a b hab
  simp only [decide_eq_true_eq, cmpDefault_le_iff] at hab
  rintro ⟨hqa, hactb, hqb⟩
  have h2 := visPriority_of_qty_zero a hqa
  have h0 := visPriority_of_active_stock b hactb hqb
  omega

/-- C2 witness: the theorem applied to the constant comparison and a
concrete two-product list. -/
theorem C2_default_sort_stock_first_witness :
    (sortProducts lcZero ⟨[]⟩ [sampleActiveNoStock, sampleActiveInStock]).Pairwise
      (fun a b =>
        ¬(a.quantityInStock.getD 0 = 0 ∧
          b.active.getD false = true ∧ 0 < b.quantityInStock.getD 0)) :=
  C2_default_sort_stock_first lcZero (fun _ _ => Or.inl (Int.le_refl 0))
    (fun _ _ _ _ _ => Int.le_refl 0) [sampleActiveNoStock, sampleActiveInStock]

/-! ### Lemmas about `normalizePriorities` -/

/-- `reindexFrom i` produces consecutive priorities from `i`. -/
theorem reindexFrom_indexed : ∀ (l : List SortCriterion) (i : Nat),
    IndexedFrom i (reindexFrom i l)
  | [], _ => trivial
  | _ :: rest, i => ⟨rfl, reindexFrom_indexed rest (i + 1)⟩

/-- `reindexFrom i` is the identity on a list whose priorities are
already consecutive from `i`. -/
theorem reindexFrom_eq_of_indexed : ∀ {l : List SortCriterion} {i : Nat},
    IndexedFrom i l → reindexFrom i l = l
  | [], _, _ => rfl
  | c :: rest, i, h => by
    obtain ⟨h1, h2⟩ := h
    rw [reindexFrom, reindexFrom_eq_of_indexed h2]
    cases c
    simp_all

/-- `reindexFrom` keeps every field (and direction). -/
theorem reindexFrom_map_field : ∀ (l : List SortCriterion) (i : Nat),
    (reindexFrom i l).map (fun c => c.field) = l.map (fun c => c.field)
  | [], _ => rfl
  | _ :: rest, i => by simp [reindexFrom, reindexFrom_map_field rest (i + 1)]

/-- Every priority in an `IndexedFrom i` list is at least `i`. -/
theorem indexedFrom_le : ∀ {l : List SortCriterion} {i : Nat},
    IndexedFrom i l → ∀ c ∈ l, i ≤ c.priority
  | [], _, _, c, hc => by cases hc
  | d :: rest, i, h, c, hc => by
    obtain ⟨h1, h2⟩ := h
    rcases List.mem_cons.mp hc with rfl | hc
    · omega
    · exact Nat.le_of_succ_le (indexedFrom_le h2 c hc)

/-- An `IndexedFrom` list is pairwise non-decreasing in priority. -/
theorem indexedFrom_pairwise : ∀ {l : List SortCriterion} {i : Nat},
    IndexedFrom i l → l.Pairwise (fun a b => a.priority ≤ b.priority)
  | [], _, _ => List.Pairwise.nil
  | c :: rest, i, h => by
    obtain ⟨h1, h2⟩ := h
    refine List.Pairwise.cons ?_ (indexedFrom_pairwise h2)
    intro b hb
    have := indexedFrom_le h2 b hb
    omega

/-- Stable sorting by priority does not move an already-indexed list. -/
theorem sortByPriority_eq_of_indexed {l : List SortCriterion} {i : Nat}
    (h : IndexedFrom i l) : sortByPriority l = l := by
  apply List.mergeSort_of_sorted
  exact (indexedFrom_pairwise h).imp (fun hab => decide_eq_true hab)

/-- `normalizePriorities` is the identity on an indexed list. -/
theorem normalizePriorities_eq_of_indexed {l : List SortCriterion}
    (h : IndexedFrom 0 l) : normalizePriorities l = l := by
  rw [normalizePriorities, sortByPriority_eq_of_indexed h,
    reindexFrom_eq_of_indexed h]

/-- `IndexedFrom` rephrased through `List.range'`. -/
theorem indexedFrom_iff_map_range' : ∀ (l : List SortCriterion) (i : Nat),
    IndexedFrom i l ↔ l.map (fun c => c.priority) = List.range' i l.length
  | [], i => by simp [IndexedFrom]
  | c :: rest, i => by
    simp [IndexedFrom, List.range'_succ, indexedFrom_iff_map_range' rest (i + 1)]

/-- If the priorities of `l` are a permutation of `0, ..., n-1`, the
stable sort by priority arranges them as exactly `0, ..., n-1`. -/
theorem sortByPriority_indexed_of_perm_range {l : List SortCriterion}
    (h : (l.map (fun c => c.priority)).Perm (List.range l.length)) :
    IndexedFrom 0 (sortByPriority l) := by
  have hperm : (sortByPriority l).Perm l := List.mergeSort_perm l _
  have hlen : (sortByPriority l).length = l.length := hperm.length_eq
  have hsorted : (sortByPriority l).Pairwise (fun a b => a.priority ≤ b.priority) := by
    have := @List.sorted_mergeSort SortCriterion
      (fun a b => decide (a.priority ≤ b.priority))
      (fun a b c h1 h2 => by
        simp only [decide_eq_true_eq] at h1 h2 ⊢; omega)
      (fun a b => by
        simp only [Bool.or_eq_true, decide_eq_true_eq]; omega) l
    exact this.imp (fun hab => of_decide_eq_true hab)
  have hmapsorted : ((sortByPriority l).map (fun c => c.priority)).Pairwise (· ≤ ·) :=
    hsorted.map _ (fun _ _ hab => hab)
  have hmapperm : ((sortByPriority l).map (fun c => c.priority)).Perm
      (List.range l.length) := ((hperm.map _).trans h)
  have heq : (sortByPriority l).map (fun c => c.priority) = List.range l.length :=
    List.eq_of_perm_of_sorted hmapperm hmapsorted (List.pairwise_le_range _)
  rw [indexedFrom_iff_map_range', hlen, heq, List.range_eq_range']

/-- Under the contiguity hypothesis, `normalizePriorities` only
reorders: the resulting list is a permutation of the input and is
indexed. -/
theorem normalizePriorities_perm_of_perm_range {l : List SortCriterion}
    (h : (l.map (fun c => c.priority)).Perm (List.range l.length)) :
    (normalizePriorities l).Perm l ∧ IndexedFrom 0 (normalizePriorities l) := by
  have hidx := sortByPriority_indexed_of_perm_range h
  rw [normalizePriorities, reindexFrom_eq_of_indexed hidx]
  exact ⟨List.mergeSort_perm l _, hidx⟩

/-- `toggleAt` never changes a criterion's priority. -/
theorem toggleAt_priority (f : SortField) (c : SortCriterion) :
    (toggleAt f c).priority = c.priority := by
  unfold toggleAt
  split <;> rfl

/-- `toggleAt` never changes a criterion's field. -/
theorem toggleAt_field (f : SortField) (c : SortCriterion) :
    (toggleAt f c).field = c.field := by
  unfold toggleAt
  split <;> rfl

/-- Flipping a direction twice restores it. -/
theorem toggleDirection_toggleDirection (d : SortDirection) :
    toggleDirection (toggleDirection d) = d := by
  cases d <;> rfl

/-- `toggleAt` is an involution. -/
theorem toggleAt_toggleAt (f : SortField) (c : SortCriterion) :
    toggleAt f (toggleAt f c) = c := by
  rcases c with ⟨fl, d, p⟩
  by_cases h : fl = f <;>
    simp [toggleAt, h, toggleDirection_toggleDirection]

/-- Mapping `toggleAt` preserves the priority sequence. -/
theorem map_priority_map_toggleAt (f : SortField) (l : List SortCriterion) :
    (l.map (toggleAt f)).map (fun c => c.priority) = l.map (fun c => c.priority) := by
  rw [List.map_map]
  exact List.map_congr_left (fun c _ => toggleAt_priority f c)

/-- Mapping `toggleAt` preserves the field sequence. -/
theorem map_field_map_toggleAt (f : SortField) (l : List SortCriterion) :
    (l.map (toggleAt f)).map (fun c => c.field) = l.map (fun c => c.field) := by
  rw [List.map_map]
  exact List.map_congr_left (fun c _ => toggleAt_field f c)

/-- Mapping `toggleAt` preserves indexedness. -/
theorem indexedFrom_map_toggleAt (f : SortField) :
    ∀ {l : List SortCriterion} {i : Nat},
      IndexedFrom i l → IndexedFrom i (l.map (toggleAt f))
  | [], _, _ => trivial
  | c :: rest, i, h => by
    obtain ⟨h1, h2⟩ := h
    exact ⟨by rw [toggleAt_priority, h1], indexedFrom_map_toggleAt f h2⟩

/-- The `find?` test of `handleSort` succeeds exactly when the field is
among the criteria. -/
theorem find?_field_isSome (l : List SortCriterion) (f : SortField) :
    (l.find? (fun c => c.field = f)).isSome = true ↔
      f ∈ l.map (fun c => c.field) := by
  simp only [List.find?_isSome, List.mem_map, decide_eq_true_eq]

/-- C3: on a configuration with unique fields and contiguous priorities
(as a multiset) that already contains `f`, toggling `f` twice yields the
same criteria again — each criterion, including the one for `f`, keeps
its field, direction and priority (stated as a permutation, since the
code's normalization step may reorder a list that was not stored in
priority order). -/
theorem C3_double_toggle (cfg : MultiSortConfig) (f : SortField)
    (hfields : (cfg.criteria.map (fun c => c.field)).Nodup)
    (hprio : (cfg.criteria.map (fun c => c.priority)).Perm
      (List.range cfg.criteria.length))
    (hmem : f ∈ cfg.criteria.map (fun c => c.field)) :
    ((handleSort (handleSort cfg f) f).criteria).Perm cfg.criteria := by
  obtain ⟨criteria⟩ := cfg
  simp only at hprio hmem
  have hfind1 : (criteria.find? (fun c => c.field = f)).isSome = true :=
    (find?_field_isSome criteria f).mpr hmem
  have hstep1 : handleSort ⟨criteria⟩ f =
      ⟨normalizePriorities (criteria.map (toggleAt f))⟩ := by
    rw [handleSort, if_pos hfind1]
  have hprio1 : ((criteria.map (toggleAt f)).map (fun c => c.priority)).Perm
      (List.range (criteria.map (toggleAt f)).length) := by
    rw [map_priority_map_toggleAt, List.length_map]
    exact hprio
  obtain ⟨hperm1, hidx1⟩ := normalizePriorities_perm_of_perm_range hprio1
  set m := normalizePriorities (criteria.map (toggleAt f)) with hm
  have hmem2 : f ∈ m.map (fun c => c.field) := by
    have : (m.map (fun c => c.field)).Perm
        ((criteria.map (toggleAt f)).map (fun c => c.field)) := hperm1.map _
    rw [map_field_map_toggleAt] at this
    exact this.mem_iff.mpr hmem
  have hfind2 : (m.find? (fun c => c.field = f)).isSome = true :=
    (find?_field_isSome m f).mpr hmem2
  have hstep2 : handleSort ⟨m⟩ f = ⟨normalizePriorities (m.map (toggleAt f))⟩ := by
    rw [handleSort, if_pos hfind2]
  have hidx2 : IndexedFrom 0 (m.map (toggleAt f)) := indexedFrom_map_toggleAt f hidx1
  rw [hstep1, hstep2, normalizePriorities_eq_of_indexed hidx2]
  show (m.map (toggleAt f)).Perm criteria
  refine (hperm1.map (toggleAt f)).trans ?_
  rw [List.map_map,
    show toggleAt f ∘ toggleAt f = id from funext (toggleAt_toggleAt f),
    List.map_id]

/-- C3 witness: toggling `price` twice on a two-criterion configuration
through `C3_double_toggle`. -/
theorem C3_double_toggle_witness :
    ((handleSort (handleSort sampleSortConfig .price) .price).criteria).Perm
      sampleSortConfig.criteria :=
  C3_double_toggle sampleSortConfig .price (by decide) (by decide) (by decide)

/-! ### Lemmas for the reachable-configuration invariant -/

/-- `reindexFrom` preserves length. -/
theorem reindexFrom_length : ∀ (l : List SortCriterion) (i : Nat),
    (reindexFrom i l).length = l.length
  | [], _ => rfl
  | _ :: rest, i => by simp [reindexFrom, reindexFrom_length rest (i + 1)]

/-- Appending a criterion with the next priority keeps a list indexed. -/
theorem indexedFrom_append : ∀ {l : List SortCriterion} {i : Nat},
    IndexedFrom i l → ∀ c : SortCriterion, c.priority = i + l.length →
      IndexedFrom i (l ++ [c])
  | [], i, _, c, hc => ⟨by simpa using hc, trivial⟩
  | d :: rest, i, h, c, hc => by
    obtain ⟨h1, h2⟩ := h
    exact ⟨h1, indexedFrom_append h2 c (by simp at hc ⊢; omega)⟩

/-- On input already sorted by priority, `normalizePriorities` only
renumbers. -/
theorem normalizePriorities_of_pairwise {l : List SortCriterion}
    (h : l.Pairwise (fun a b => a.priority ≤ b.priority)) :
    normalizePriorities l = reindexFrom 0 l := by
  rw [normalizePriorities, sortByPriority,
    List.mergeSort_of_sorted (h.imp (fun hab => decide_eq_true hab))]

/-- `handleSort` preserves field uniqueness and indexedness. -/
theorem inv_handleSort (cfg : MultiSortConfig) (f : SortField)
    (hnd : (cfg.criteria.map (fun c => c.field)).Nodup)
    (hidx : IndexedFrom 0 cfg.criteria) :
    ((handleSort cfg f).criteria.map (fun c => c.field)).Nodup ∧
      IndexedFrom 0 (handleSort cfg f).criteria := by
  by_cases hfind : (cfg.criteria.find? (fun c => c.field = f)).isSome = true
  · rw [handleSort, if_pos hfind]
    have hidx2 := indexedFrom_map_toggleAt f hidx
    rw [normalizePriorities_eq_of_indexed hidx2]
    exact ⟨by rw [map_field_map_toggleAt]; exact hnd, hidx2⟩
  · rw [handleSort, if_neg hfind]
    have hidx2 : IndexedFrom 0 (cfg.criteria ++
        [{ field := f, direction := .asc, priority := cfg.criteria.length }]) :=
      indexedFrom_append hidx _ (by simp)
    rw [normalizePriorities_eq_of_indexed hidx2]
    refine ⟨?_, hidx2⟩
    have hnotmem : f ∉ cfg.criteria.map (fun c => c.field) := by
      intro hmem
      exact hfind ((find?_field_isSome _ _).mpr hmem)
    simp [List.nodup_append, hnd, hnotmem]

/-- `removeSortCriterion` preserves field uniqueness and indexedness,
and only filters the field sequence. -/
theorem inv_removeSortCriterion (cfg : MultiSortConfig) (f : SortField)
    (hnd : (cfg.criteria.map (fun c => c.field)).Nodup)
    (hidx : IndexedFrom 0 cfg.criteria) :
    ((removeSortCriterion cfg f).criteria.map (fun c => c.field)).Nodup ∧
      IndexedFrom 0 (removeSortCriterion cfg f).criteria := by
  have hpw : (cfg.criteria.filter (fun c => ¬ c.field = f)).Pairwise
      (fun a b => a.priority ≤ b.priority) :=
    (indexedFrom_pairwise hidx).sublist (List.filter_sublist _)
  rw [removeSortCriterion, normalizePriorities_of_pairwise hpw]
  constructor
  · rw [reindexFrom_map_field]
    exact hnd.sublist ((List.filter_sublist _).map _)
  · exact reindexFrom_indexed _ 0

/-- Removing the unique criterion carrying field `f` shortens the list
by exactly one. -/
theorem filter_field_ne_length (f : SortField) (l : List SortCriterion) :
    (l.map (fun c => c.field)).Nodup → f ∈ l.map (fun c => c.field) →
      (l.filter (fun c => ¬ c.field = f)).length + 1 = l.length := by
  induction l with
  | nil =>
    intro _ h
    simp at h
  | cons c rest ih =>
    intro hnd hmem
    rw [List.map_cons, List.nodup_cons] at hnd
    obtain ⟨hc, hrest⟩ := hnd
    rw [List.map_cons, List.mem_cons] at hmem
    by_cases hcf : c.field = f
    · have hnone : ∀ x ∈ rest, ¬ x.field = f := by
        intro x hx hxf
        exact hc (hcf ▸ hxf ▸ List.mem_map_of_mem (fun c => c.field) hx)
      have hall : rest.filter (fun c => ¬ c.field = f) = rest :=
        List.filter_eq_self.mpr (fun x hx => decide_eq_true (hnone x hx))
      simp [List.filter_cons, hcf, hall]
      exact hnone
    · rcases hmem with h | h
      · exact absurd h.symm hcf
      · have := ih hrest h
        simp only [decide_not] at this
        simp [List.filter_cons, hcf]
        omega

/-- C4: every configuration reachable from the empty one by toggles,
removals and resets has pairwise-distinct fields and priorities exactly
`0, ..., n-1` in order; and on any configuration with that shape and
three criteria, removing a present field leaves two criteria with
priorities exactly `[0, 1]`, the fields in their previous relative
order. -/
theorem C4_reachable_invariant :
    (∀ cfg : MultiSortConfig, Reachable cfg →
      (cfg.criteria.map (fun c => c.field)).Nodup ∧
        cfg.criteria.map (fun c => c.priority) = List.range cfg.criteria.length) ∧
    (∀ (cfg : MultiSortConfig) (f : SortField),
      (cfg.criteria.map (fun c => c.field)).Nodup →
      cfg.criteria.map (fun c => c.priority) = List.range cfg.criteria.length →
      cfg.criteria.length = 3 → f ∈ cfg.criteria.map (fun c => c.field) →
      (removeSortCriterion cfg f).criteria.length = 2 ∧
        (removeSortCriterion cfg f).criteria.map (fun c => c.priority) = [0, 1] ∧
        (removeSortCriterion cfg f).criteria.map (fun c => c.field) =
          (cfg.criteria.filter (fun c => ¬ c.field = f)).map (fun c => c.field)) := by
  constructor
  · intro cfg hr
    have hinv : (cfg.criteria.map (fun c => c.field)).Nodup ∧
        IndexedFrom 0 cfg.criteria := by
      induction hr with
      | empty => exact ⟨List.nodup_nil, trivial⟩
      | sort cfg f _ ih => exact inv_handleSort cfg f ih.1 ih.2
      | remove cfg f _ ih => exact inv_removeSortCriterion cfg f ih.1 ih.2
      | reset cfg _ _ => exact ⟨List.nodup_nil, trivial⟩
    refine ⟨hinv.1, ?_⟩
    rw [List.range_eq_range']
    exact (indexedFrom_iff_map_range' _ 0).mp hinv.2
  · intro cfg f hnd hpr hlen hmem
    have hidx : IndexedFrom 0 cfg.criteria := by
      rw [indexedFrom_iff_map_range', ← List.range_eq_range']
      exact hpr
    have hpw : (cfg.criteria.filter (fun c => ¬ c.field = f)).Pairwise
        (fun a b => a.priority ≤ b.priority) :=
      (indexedFrom_pairwise hidx).sublist (List.filter_sublist _)
    have hr : (removeSortCriterion cfg f).criteria =
        reindexFrom 0 (cfg.criteria.filter (fun c => ¬ c.field = f)) := by
      rw [removeSortCriterion, normalizePriorities_of_pairwise hpw]
    have hflen : (cfg.criteria.filter (fun c => ¬ c.field = f)).length + 1 =
        cfg.criteria.length := filter_field_ne_length f cfg.criteria hnd hmem
    have hlen2 : (cfg.criteria.filter (fun c => ¬ c.field = f)).length = 2 := by
      omega
    refine ⟨?_, ?_, ?_⟩
    · rw [hr, reindexFrom_length, hlen2]
    · rw [hr]
      have := (indexedFrom_iff_map_range' (reindexFrom 0
        (cfg.criteria.filter (fun c => ¬ c.field = f))) 0).mp
        (reindexFrom_indexed _ 0)
      rw [this, reindexFrom_length, hlen2]
      rfl
    · rw [hr, reindexFrom_map_field]

/-- C4 witness: the invariant at the empty configuration, and a removal
from a concrete three-criterion configuration. -/
theorem C4_reachable_invariant_witness :
    (((⟨[]⟩ : MultiSortConfig).criteria.map (fun c => c.field)).Nodup ∧
      (⟨[]⟩ : MultiSortConfig).criteria.map (fun c => c.priority) =
        List.range (⟨[]⟩ : MultiSortConfig).criteria.length) ∧
    ((removeSortCriterion sampleSortConfig3 .price).criteria.length = 2 ∧
      (removeSortCriterion sampleSortConfig3 .price).criteria.map
        (fun c => c.priority) = [0, 1] ∧
      (removeSortCriterion sampleSortConfig3 .price).criteria.map
        (fun c => c.field) =
        (sampleSortConfig3.criteria.filter (fun c => ¬ c.field = .price)).map
          (fun c => c.field)) :=
  ⟨C4_reachable_invariant.1 ⟨[]⟩ Reachable.empty,
   C4_reachable_invariant.2 sampleSortConfig3 .price (by decide) (by decide)
     (by decide) (by decide)⟩

/-- C5: resizing a non-last column by a delta that keeps both the
resized column and its right neighbour inside `[80, 500]` preserves the
combined width of the two adjacent columns; resizing `price` to 170
(that is, by +50) from the default `price = 120`, `quantity = 200`
yields `price = 170`, `quantity = 150`; resizing the last column
(`visibility`) only clamps it in place and changes no other column. -/
theorem C5_column_resize :
    (∀ (w : ColWidths) (field nextField : Column) (newWidth : Int),
      nextColumn field = some nextField →
      80 ≤ newWidth → newWidth ≤ 500 →
      80 ≤ getWidth w nextField - (newWidth - getWidth w field) →
      getWidth w nextField - (newWidth - getWidth w field) ≤ 500 →
      getWidth (handleColumnResize w field newWidth) field +
          getWidth (handleColumnResize w field newWidth) nextField =
        getWidth w field + getWidth w nextField) ∧
    handleColumnResize defaultColumnWidths .price 170 =
      { name := 300, price := 170, quantity := 150, visibility := 150 } ∧
    (∀ (w : ColWidths) (newWidth : Int),
      handleColumnResize w .visibility newWidth =
        { w with visibility := clampWidth newWidth }) := by
  refine ⟨?_, by decide, ?_⟩
  · intro w field nf nW hnext h1 h2 h3 h4
    cases field <;> simp only [nextColumn, Option.some.injEq,
      reduceCtorEq] at hnext <;> subst hnext <;>
      simp only [handleColumnResize, nextColumn, getWidth, setWidth,
        clampWidth] at h3 h4 ⊢ <;> omega
  · intro w nW
    rfl

/-- C5 witness: `C5_column_resize` applied to the default widths,
resizing `price` to 170. -/
theorem C5_column_resize_witness :
    getWidth (handleColumnResize defaultColumnWidths .price 170) .price +
        getWidth (handleColumnResize defaultColumnWidths .price 170) .quantity =
      getWidth defaultColumnWidths .price + getWidth defaultColumnWidths .quantity :=
  C5_column_resize.1 defaultColumnWidths .price .quantity 170 (by decide)
    (by decide) (by decide) (by decide) (by decide)

/-- C6: for a cached list and a product `p` in it, the optimistic
removal of `p.id` followed by `revertProduct p` yields a list that again
contains `p` itself — a product with `p`'s id identical to its
pre-delete form. -/
theorem C6_remove_then_revert (currentProducts : List Product) (p : Product)
    (_hp : p ∈ currentProducts) :
    p ∈ revertProduct (removeProduct currentProducts p.id) p :=
  List.mem_append_right _ (List.mem_singleton.mpr rfl)

/-- C6 witness: removal and revert of a concrete product. -/
theorem C6_remove_then_revert_witness :
    sampleActiveInStock ∈
      revertProduct
        (removeProduct [sampleActiveNoStock, sampleActiveInStock]
          sampleActiveInStock.id)
        sampleActiveInStock :=
  C6_remove_then_revert [sampleActiveNoStock, sampleActiveInStock]
    sampleActiveInStock (by decide)

/-- C7: the stock-save trace contains a visibility-update request if and
only if the saved quantity is 0, in which case it is exactly one request
with `visible = false` for the same `(productId, kioskId)`, placed after
the stock update (which is always the first effect); the
`admin-refresh-requested` dispatch happens exactly once, exactly when
the quantity is 0 and the visibility update succeeded. -/
theorem C7_stock_save_autohide (productId kioskId : Int) (quantity : Nat)
    (visOk : Bool) :
    (handleSave productId kioskId quantity visOk).filter
        (fun e => e.isVisUpdate) =
      (if quantity = 0 then [SaveEffect.visUpdate productId kioskId false]
       else []) ∧
    (handleSave productId kioskId quantity visOk).head? =
      some (SaveEffect.stockUpdate productId kioskId quantity) ∧
    (handleSave productId kioskId quantity visOk).count
        SaveEffect.dispatchRefreshEvent =
      (if quantity = 0 then (if visOk then 1 else 0) else 0) := by
  rcases quantity with _ | q <;> rcases visOk <;>
    simp [handleSave, SaveEffect.isVisUpdate, List.count_cons]

/-- C8: the fetcher returns the product list exactly when the response
is `ok` and the parsed body has `success` with `data.products` present;
transport failure yields the network error, non-success status the API
error with that status, and a missing/ill-shaped body the parse error;
a successful fetch replaces the cached list. -/
theorem C8_fetcher_classification :
    fetcher .netFail = .error .NetworkError ∧
    (∀ (status : Nat) (json : Option JsonBody),
      fetcher (.resp false status json) = .error (.ApiError status)) ∧
    (∀ (ok : Bool) (status : Nat) (json : Option JsonBody)
        (products : List Product),
      fetcher (.resp ok status json) = .ok products ↔
        (ok = true ∧ json = some ⟨true, some products⟩)) ∧
    (∀ (status : Nat) (body : JsonBody),
      body.success = false ∨ body.dataProducts = none →
        fetcher (.resp true status (some body)) = .error .ParseError) ∧
    (∀ status : Nat, fetcher (.resp true status none) = .error .ParseError) ∧
    (∀ (cached : List Product) (r : HttpResult) (products : List Product),
      fetcher r = .ok products → cacheAfterFetch cached r = products) := by
  refine ⟨rfl, ?_, ?_, ?_, ?_, ?_⟩
  · intro status json
    simp [fetcher]
  · intro ok status json products
    cases ok
    · simp [fetcher]
    · cases json with
      | none => simp [fetcher]
      | some body =>
        rcases body with ⟨s, dp⟩
        cases s
        · simp [fetcher]
        · cases dp with
          | none => simp [fetcher]
          | some ps => simp [fetcher]
  · intro status body h
    rcases body with ⟨s, dp⟩
    rcases h with h | h
    · simp only at h
      subst h
      simp [fetcher]
    · simp only at h
      subst h
      cases s <;> simp [fetcher]
  · intro status
    simp [fetcher]
  · intro cached r products h
    simp [cacheAfterFetch, h]

/-- C8 witness: a parse error on a `success:false` body, and a cache
replacement on a well-shaped success. -/
theorem C8_fetcher_classification_witness :
    fetcher (.resp true 200 (some ⟨false, none⟩)) = .error .ParseError ∧
    cacheAfterFetch [] (.resp true 200 (some ⟨true, some [sampleBare]⟩)) =
      [sampleBare] :=
  ⟨C8_fetcher_classification.2.2.2.1 200 ⟨false, none⟩ (Or.inl rfl),
   C8_fetcher_classification.2.2.2.2.2 [] (.resp true 200
     (some ⟨true, some [sampleBare]⟩)) [sampleBare] rfl⟩

/-- C9: a submission whose trimmed name is empty or whose price is
non-positive is blocked before any network call: no effect is emitted
(in particular no request) and the cached list is unchanged. -/
theorem C9_validation_blocks_submit (editingProduct : Option Product)
    (productForm : ProductForm) (cache : List Product) (resp : SubmitResp)
    (h : productForm.name.trim = "" ∨ productForm.price ≤ 0) :
    handleProductSubmit editingProduct productForm cache resp = ([], cache) := by
  have hv : validateProductForm productForm = false := by
    rcases h with h | h <;> simp [validateProductForm, h]
  simp [handleProductSubmit, hv]

/-- C9 witness: a zero-price form issues nothing and leaves the cache
alone. -/
theorem C9_validation_blocks_submit_witness :
    handleProductSubmit none { name := "x", price := 0, description := "" }
        [sampleBare] .netErr = ([], [sampleBare]) :=
  C9_validation_blocks_submit none _ [sampleBare] .netErr (Or.inr (by decide))

/-- C10: the code accepts the extra sort field `active`; its comparison
coincides with the `visibility` comparison on every pair of products
(both call `getVisibilityPriority`), so a single-criterion sort by
`active` equals the sort by `visibility` with the same direction. -/
theorem C10_active_refines_visibility :
    (∀ (lc : String → String → Int) (a b : Product),
      cmpField lc .active a b = cmpField lc .visibility a b) ∧
    (∀ (lc : String → String → Int) (d : SortDirection) (l : List Product),
      sortProducts lc ⟨[{ field := .active, direction := d, priority := 0 }]⟩ l =
        sortProducts lc
          ⟨[{ field := .visibility, direction := d, priority := 0 }]⟩ l) :=
  ⟨fun _ _ _ => rfl, fun _ _ _ => rfl⟩

end Rpapp
